import Mathlib

set_option maxRecDepth 4000

/-!
Verification of the multi-pass code-refactor pipeline implemented in
`src/tools/code/code_refactor_tool.py` (class `CodeRefactorTool`).

The embedding models Python's dynamic values (`PyVal`), insertion-ordered
dicts as association lists with unique keys, and the tool's methods as
executable Lean functions.  External collaborators that are not part of the
source under analysis are passed in as parameters:
  - the language model (`llm.predict` followed by `parse_json`) is an oracle
    supplying one already-parsed response per pass, consumed in order;
  - the tokenizer `num_tokens_from_string` is an arbitrary function
    `String → Nat`;
  - retrieval / persistence results (`file_info`, database file rows) are
    arguments.
Every pipeline function additionally returns the ordered list of model
invocations it performed (the `code` and `metadata` values embedded into each
pass's prompt), so that claims about "zero model calls" and about what each
pass saw can be stated.
-/

namespace CodeRefactor

/-- Dynamic Python values, restricted to the shapes that flow through the
refactor tool: strings, ints, bools, lists, and insertion-ordered dicts with
string keys. -/
inductive PyVal where
  | str : String → PyVal
  | int : Int → PyVal
  | bool : Bool → PyVal
  | list : List PyVal → PyVal
  | dict : List (String × PyVal) → PyVal
deriving Repr

/-- A Python dict with string keys, as an insertion-ordered association list
(keys assumed unique, as produced by JSON decoding and dict literals). -/
abbrev PyDict := List (String × PyVal)

/-- Dict lookup: `d[key]` as an `Option` (`none` models a raised `KeyError`). -/
def dictGet : PyDict → String → Option PyVal
  | [], _ => none
  | (k, v) :: rest, key => if k = key then some v else dictGet rest key

/-- Dict update `d[key] = v`: replaces in place if the key exists, otherwise
appends at the end (Python insertion order). -/
def dictSet : PyDict → String → PyVal → PyDict
  | [], key, v => [(key, v)]
  | (k, w) :: rest, key, v =>
    if k = key then (k, v) :: rest else (k, w) :: dictSet rest key v

/-- Key removal, as performed by `d.pop(key, default)` on the dict itself. -/
def dictPopKey (d : PyDict) (key : String) : PyDict :=
  d.filter (fun p => p.1 ≠ key)

/-- Python truthiness for the modelled values (`bool(v)`). -/
def pyTruthy : PyVal → Bool
  | .str s => s ≠ ""
  | .int n => n ≠ 0
  | .bool b => b
  | .list xs => !xs.isEmpty
  | .dict xs => !xs.isEmpty

/-- The quote character Python's `repr` picks for a string: a single quote,
unless the string contains a single quote and no double quote. -/
def pyQuoteChar (s : String) : Char :=
  if s.data.contains (Char.ofNat 39) && !(s.data.contains (Char.ofNat 34)) then
    Char.ofNat 34
  else
    Char.ofNat 39

/-- Escaping of one character inside a Python string `repr`, for the
printable-ASCII subset exercised here (backslash, the active quote,
newline, carriage return, tab). -/
def pyEscapeChar (quote : Char) (c : Char) : List Char :=
  if c = '\\' then ['\\', '\\']
  else if c = quote then ['\\', c]
  else if c = '\n' then ['\\', 'n']
  else if c = '\r' then ['\\', 'r']
  else if c = '\t' then ['\\', 't']
  else [c]

/-- Python `repr` of a string (quote choice plus escaping). -/
def pyReprString (s : String) : String :=
  let q := pyQuoteChar s
  String.mk (q :: (s.data.map (pyEscapeChar q)).flatten ++ [q])

mutual

/-- Python `repr` of a value (also `str` for non-string values): used when a
value is interpolated into an f-string as part of a containing list/dict. -/
def pyRepr : PyVal → String
  | .str s => pyReprString s
  | .int n => toString n
  | .bool b => if b then "True" else "False"
  | .list xs => "[" ++ pyReprList xs ++ "]"
  | .dict xs => "\x7b" ++ pyReprDict xs ++ "\x7d"

/-- Comma-separated `repr` of list elements. -/
def pyReprList : List PyVal → String
  | [] => ""
  | [x] => pyRepr x
  | x :: y :: xs => pyRepr x ++ ", " ++ pyReprList (y :: xs)

/-- Comma-separated `repr` of dict entries (`'key': value`). -/
def pyReprDict : List (String × PyVal) → String
  | [] => ""
  | [(k, v)] => pyReprString k ++ ": " ++ pyRepr v
  | (k, v) :: p :: xs => pyReprString k ++ ": " ++ pyRepr v ++ ", " ++ pyReprDict (p :: xs)

end

/-- Python `str()` of a value, as applied by `str.format` / f-string
interpolation: strings pass through unchanged, everything else renders as its
`repr`. -/
def pyStr : PyVal → String
  | .str s => s
  | v => pyRepr v

/-- Worker for `str.splitlines`: split on `\n`, `\r\n` and `\r`, with no empty
trailing element for a terminating newline. -/
def pySplitlinesAux : List Char → List Char → List String
  | [], [] => []
  | [], acc => [String.mk acc.reverse]
  | '\n' :: rest, acc => String.mk acc.reverse :: pySplitlinesAux rest []
  | '\r' :: '\n' :: rest, acc => String.mk acc.reverse :: pySplitlinesAux rest []
  | '\r' :: rest, acc => String.mk acc.reverse :: pySplitlinesAux rest []
  | c :: rest, acc => pySplitlinesAux rest (c :: acc)

/-- Python `str.splitlines()`. -/
def pySplitlines (s : String) : List String :=
  pySplitlinesAux s.data []

/-- ASCII upper-casing, modelling Python's `str.upper()` on the template
setting names (lower-case ASCII letters and underscores). -/
def asciiUpper (s : String) : String :=
  String.mk (s.data.map Char.toUpper)

/-- The line-numbering performed by `_conduct_code_refactor`:
`[f"{line_num + 1}: {line}" for line_num, line in enumerate(file_data.splitlines())]`. -/
def annotateWithLineNumbers (fileData : String) : List String :=
  (pySplitlines fileData).enum.map (fun p => toString (p.1 + 1) ++ ": " ++ p.2)

/-- Python exceptions raised by the modelled code paths. -/
inductive PyErr where
  | keyError : String → PyErr
  | typeError : String → PyErr
  | exception : String → PyErr
deriving Repr, DecidableEq

/-- One entry of the `template_checks` table: the setting suffix and the
template description. -/
def templateChecks : List (String × String) :=
  [("security_code_refactor", "Security"),
   ("performance_code_refactor", "Performance"),
   ("memory_code_refactor", "Memory"),
   ("correctness_code_refactor", "Correctness"),
   ("maintainability_code_refactor", "Maintainability"),
   ("reliability_code_refactor", "Reliability")]

/-- An active refactor template, as appended by
`get_active_code_refactor_templates`. -/
structure RefactorTemplate where
  name : String
  description : String
deriving Repr, DecidableEq

/-- The nested configuration read `additional_settings[key]["value"]`,
raising `KeyError` on a missing key and `TypeError` when the outer entry is
not a dict. -/
def settingValue (settings : PyDict) (key : String) : Except PyErr PyVal :=
  match dictGet settings key with
  | none => .error (.keyError key)
  | some (.dict entry) =>
    match dictGet entry "value" with
    | none => .error (.keyError "value")
    | some v => .ok v
  | some _ => .error (.typeError "subscript of a non-dict configuration entry")

/-- The loop body of `get_active_code_refactor_templates`: walk the fixed
`template_checks` table in order, reading `enable_<setting>` flags from the
settings dict and collecting a template for each truthy flag. -/
def getActiveTemplatesAux (settings : PyDict) :
    List (String × String) → Except PyErr (List RefactorTemplate)
  | [] => .ok []
  | (setting, description) :: rest =>
    match settingValue settings ("enable_" ++ setting) with
    | .error e => .error e
    | .ok v =>
      match getActiveTemplatesAux settings rest with
      | .error e => .error e
      | .ok tail =>
        .ok (if pyTruthy v then
          ⟨asciiUpper setting ++ "_TEMPLATE", description⟩ :: tail
        else tail)

/-- `get_active_code_refactor_templates`, with the tool's
`additional_settings` dict already selected from the configuration. -/
def getActiveCodeRefactorTemplates (settings : PyDict) :
    Except PyErr (List RefactorTemplate) :=
  getActiveTemplatesAux settings templateChecks

/-- `get_max_code_refactor_token_count`: the configured
`max_code_size_tokens` value. -/
def getMaxCodeRefactorTokenCount (settings : PyDict) : Except PyErr PyVal :=
  settingValue settings "max_code_size_tokens"

/-- `is_output_json`: the configured `json_output` value. -/
def isOutputJson (settings : PyDict) : Except PyErr PyVal :=
  settingValue settings "json_output"

/-- One model invocation made inside the pass loop: the `code` value and the
`code_metadata` value interpolated into `FINAL_CODE_REFACTOR_INSTRUCTIONS`
for that pass. -/
structure PassInvocation where
  codeInput : PyVal
  metadataInput : PyVal
deriving Repr

/-- Outcome of the pass loop in `_run_code_refactors`: either the early
`return data['final_answer']`, or normal completion carrying the final `code`
value and the accumulated `refactor_results`. -/
inductive LoopOutcome where
  | early : PyVal → LoopOutcome
  | done : PyVal → List PyDict → LoopOutcome
deriving Repr

/-- What `_run_code_refactors` and its callers return: the verbatim
`final_answer` value, a rendered report string, or one of the guard-message
strings returned directly. -/
inductive RunReturn where
  | early : PyVal → RunReturn
  | rendered : String → RunReturn
  | message : String → RunReturn
deriving Repr

/-- The pass loop of `_run_code_refactors`: for each active template, embed
the current `code` and the metadata into the prompt, invoke the model (one
oracle response consumed), then either return `data['final_answer']`, raise
`KeyError('refactored_code')`, or tag the response with `refactor_type`,
append it to `refactor_results`, and feed `data["refactored_code"]` into the
next pass.  Also returns the ordered invocation trace. -/
def runLoop (metadata : PyVal) :
    List RefactorTemplate → List PyDict → PyVal → List PyDict →
    List PassInvocation × Except PyErr LoopOutcome
  | [], _, code, acc => ([], .ok (.done code acc))
  | _ :: _, [], code, _ => ([⟨code, metadata⟩], .error (.exception "model response oracle exhausted"))
  | template :: rest, data :: responses, code, acc =>
    let inv : PassInvocation := ⟨code, metadata⟩
    match dictGet data "final_answer" with
    | some answer => ([inv], .ok (.early answer))
    | none =>
      match dictGet data "refactored_code" with
      | none => ([inv], .error (.keyError "refactored_code"))
      | some newCode =>
        let tagged := dictSet data "refactor_type" (.str template.description)
        let next := runLoop metadata rest responses newCode (acc ++ [tagged])
        (inv :: next.1, next.2)

/-- The `refactor_thoughts` list comprehension in `_run_code_refactors`:
for each accumulated result, a dict of its `refactor_type` and `thoughts`. -/
def buildThoughts : List PyDict → Except PyErr (List PyVal)
  | [] => .ok []
  | r :: rs =>
    match dictGet r "refactor_type" with
    | none => .error (.keyError "refactor_type")
    | some rt =>
      match dictGet r "thoughts" with
      | none => .error (.keyError "thoughts")
      | some th =>
        match buildThoughts rs with
        | .error e => .error e
        | .ok rest => .ok (.dict [("refactor_type", rt), ("thoughts", th)] :: rest)

/-- Assembly of the `results` dict after the pass loop, in the source's
evaluation order: `data["metadata"]` from the last processed response, then
`data["language"]`, then the `refactor_thoughts` comprehension, with the
final `code` value as `refactored_code`. -/
def buildResults (code : PyVal) (refactorResults : List PyDict) :
    Except PyErr PyDict :=
  match refactorResults.getLast? with
  | none => .error (.exception "loop variable unbound: no pass ran")
  | some data =>
    match dictGet data "metadata" with
    | none => .error (.keyError "metadata")
    | some refactorMetadata =>
      match dictGet data "language" with
      | none => .error (.keyError "language")
      | some language =>
        match buildThoughts refactorResults with
        | .error e => .error e
        | .ok thoughts =>
          .ok [("language", language),
               ("metadata", refactorMetadata),
               ("refactor_thoughts", .list thoughts),
               ("refactored_code", code)]

/-- One element of the thoughts block of `format_refactor_results`:
`f"#### **{thought['refactor_type']}**\n- {thought['thoughts']}"`.  A non-dict
element makes both subscripts raise `TypeError` in Python. -/
def formatThoughtEntry : PyVal → Except PyErr String
  | .dict d =>
    (match dictGet d "refactor_type" with
     | none => .error (.keyError "refactor_type")
     | some rt =>
       match dictGet d "thoughts" with
       | none => .error (.keyError "thoughts")
       | some th => .ok ("#### **" ++ pyStr rt ++ "**\n- " ++ pyStr th))
  | _ => .error (.typeError "string subscript of a non-dict thought entry")

/-- The thoughts list comprehension of `format_refactor_results`, in order. -/
def formatThoughtsList : List PyVal → Except PyErr (List String)
  | [] => .ok []
  | t :: ts =>
    match formatThoughtEntry t with
    | .error e => .error e
    | .ok s =>
      match formatThoughtsList ts with
      | .error e => .error e
      | .ok rest => .ok (s :: rest)

/-- The fixed human-readable layout of `format_refactor_results`, with the
four `str.format` substitutions (`language` appears twice). -/
def humanReportString (language label : PyVal) (thoughts : String) (codeVal : PyVal) : String :=
  "## Code Refactor\n- Language: **" ++ pyStr language
    ++ "**\n- File: **" ++ pyStr label ++ "**\n\n" ++ thoughts
    ++ "\n\n### Refactored Code\n```" ++ pyStr language ++ "\n"
    ++ pyStr codeVal ++ "\n```\n"

/-- `format_refactor_results`: joins the per-pass thought blocks, then fills
the fixed human-readable template.  The identifying label is
`metadata["url"]` when the `"url"` key is present, else `metadata["filename"]`
(raising `KeyError('filename')` when absent).  A non-dict `metadata` value
ends in `TypeError` on the subscript, whichever branch is taken. -/
def formatRefactorResults (refactorResults : PyDict) : Except PyErr String :=
  match dictGet refactorResults "refactor_thoughts" with
  | none => .error (.keyError "refactor_thoughts")
  | some (.list entries) =>
    match formatThoughtsList entries with
    | .error e => .error e
    | .ok parts =>
      let thoughts := String.intercalate "\n\n" parts
      match dictGet refactorResults "language" with
      | none => .error (.keyError "language")
      | some language =>
        match dictGet refactorResults "metadata" with
        | none => .error (.keyError "metadata")
        | some (.dict m) =>
          let labelResult : Except PyErr PyVal :=
            match dictGet m "url" with
            | some u => .ok u
            | none =>
              match dictGet m "filename" with
              | some f => .ok f
              | none => .error (.keyError "filename")
          match labelResult with
          | .error e => .error e
          | .ok label =>
            match dictGet refactorResults "refactored_code" with
            | none => .error (.keyError "refactored_code")
            | some codeVal =>
              .ok (humanReportString language label thoughts codeVal)
        | some _ => .error (.typeError "string subscript of non-dict metadata")
  | some _ => .error (.typeError "iteration of a non-list refactor_thoughts")

/-- The message of the exception raised when no refactor template is
enabled. -/
def noActiveTemplatesMessage : String :=
  "No active templates found for this tool.  You must enable at least one of the refactoring templates."

/-- The tail of `_run_code_refactors` after the pass loop: propagate the
early `return data['final_answer']` (and any raised exception), otherwise
assemble the `results` dict and render it — as
`f"\x60\x60\x60json\n\x7bresults\x7d\n\x60\x60\x60"` when `json_output` is
truthy, else via `format_refactor_results`. -/
def renderPhase (settings : PyDict) (out : Except PyErr LoopOutcome) :
    Except PyErr RunReturn :=
  match out with
  | .error e => .error e
  | .ok (.early answer) => .ok (.early answer)
  | .ok (.done finalCode refactorResults) =>
    match buildResults finalCode refactorResults with
    | .error e => .error e
    | .ok results =>
      match isOutputJson settings with
      | .error e => .error e
      | .ok flag =>
        if pyTruthy flag then
          .ok (.rendered ("```json\n" ++ pyRepr (.dict results) ++ "\n```"))
        else
          match formatRefactorResults results with
          | .error e => .error e
          | .ok text => .ok (.rendered text)

/-- `_run_code_refactors`: recompute the active templates, fail when none are
enabled, run the pass loop, then finish with `renderPhase`. -/
def runCodeRefactors (settings : PyDict) (responses : List PyDict)
    (code metadata : PyVal) : List PassInvocation × Except PyErr RunReturn :=
  match getActiveCodeRefactorTemplates settings with
  | .error e => ([], .error e)
  | .ok templates =>
    if templates.length = 0 then
      ([], .error (.exception noActiveTemplatesMessage))
    else
      let run := runLoop metadata templates responses code []
      (run.1, renderPhase settings run.2)

/-- `_conduct_code_refactor`: split the file into lines, prepend 1-based line
numbers, and run the pass loop on the resulting Python list of strings. -/
def conductCodeRefactor (settings : PyDict) (responses : List PyDict)
    (fileData : String) (metadata : PyVal) :
    List PassInvocation × Except PyErr RunReturn :=
  runCodeRefactors settings responses
    (.list ((annotateWithLineNumbers fileData).map .str)) metadata

/-- The oversize message returned by `_refactor_file_from_url`. -/
def fileTooLargeMessage (tokenCount : Nat) : String :=
  "File is too large to be refactored (" ++ toString tokenCount
    ++ " tokens). Adjust max code refactor tokens, or refactor this code file so that it\x27s smaller."

/-- `_refactor_file_from_url`: pop `file_content` out of the retrieved file
info (the remainder becomes the metadata), compare the tokenizer's estimate
against `max_code_size_tokens`, and either return the oversize message
without any model invocation or run the full refactor.  `numTokens` stands
for the external `num_tokens_from_string`. -/
def refactorFileFromUrl (numTokens : String → Nat) (settings : PyDict)
    (responses : List PyDict) (fileInfo : PyDict) :
    List PassInvocation × Except PyErr RunReturn :=
  match dictGet fileInfo "file_content" with
  | some (.str fileData) =>
    let metadata := dictPopKey fileInfo "file_content"
    let tokenCount := numTokens fileData
    match getMaxCodeRefactorTokenCount settings with
    | .error e => ([], .error e)
    | .ok (.int maxTokens) =>
      if (tokenCount : Int) > maxTokens then
        ([], .ok (.message (fileTooLargeMessage tokenCount)))
      else
        conductCodeRefactor settings responses fileData (.dict metadata)
    | .ok _ => ([], .error (.typeError "comparison of int with a non-int maximum"))
  | _ => ([], .error (.typeError "tokenizing a missing or non-string file_content"))

/-- The message returned by `conduct_code_refactor_from_file_id` for non-code
files. -/
def fileNotCodeMessage : String :=
  "File is not code. Please select a code file to conduct a refactor on, or use a different tool."

/-- `conduct_code_refactor_from_file_id`: reject non-code files, then run the
refactor on the decoded file data with `\x7b"filename": file_name\x7d` as
metadata.  The database lookup is external; its fields are parameters.  Note
there is no token-budget check on this path. -/
def conductCodeRefactorFromFileId (settings : PyDict) (responses : List PyDict)
    (fileClassification fileName fileData : String) :
    List PassInvocation × Except PyErr RunReturn :=
  if String.mk (fileClassification.data.map Char.toLower) ≠ "code" then
    ([], .ok (.message fileNotCodeMessage))
  else
    conductCodeRefactor settings responses fileData
      (.dict [("filename", .str fileName)])

/-!
Spec-side characterisations.  These definitions follow the specification's
words and are compared against the source-derived functions above.
-/

/-- The enablement flag the configuration holds for one concern: `some b`
when `enable_<setting>.value` is readable, with `b` its truthiness. -/
def concernFlag (settings : PyDict) (setting : String) : Option Bool :=
  match settingValue settings ("enable_" ++ setting) with
  | .ok v => some (pyTruthy v)
  | .error _ => none

/-- Whether a concern is enabled (an unreadable flag counts as disabled). -/
def concernEnabled (settings : PyDict) (setting : String) : Bool :=
  (concernFlag settings setting).getD false

/-- The specification's description of the active pass sequence: the fixed
canonical order of the six concerns, filtered to the enabled ones. -/
def canonicalActiveTemplates (settings : PyDict) : List RefactorTemplate :=
  (templateChecks.filter (fun p => concernEnabled settings p.1)).map
    (fun p => ⟨asciiUpper p.1 ++ "_TEMPLATE", p.2⟩)

/-- The text obtained by chaining each response's `refactored_code` from the
initial value (the fallback is never used when every response carries the
key). -/
def chainedCode (code : PyVal) : List PyDict → PyVal
  | [] => code
  | d :: ds => chainedCode ((dictGet d "refactored_code").getD code) ds

/-- The responses as accumulated by the loop: each tagged with its pass's
`refactor_type`. -/
def tagResponses : List RefactorTemplate → List PyDict → List PyDict
  | t :: ts, d :: ds => dictSet d "refactor_type" (.str t.description) :: tagResponses ts ds
  | _, _ => []

/-- Characters a JSON text (RFC 8259) may start with after optional
whitespace: an object, array, string, number, or one of `true`, `false`,
`null`. -/
def jsonStartChars : List Char :=
  [Char.ofNat 123, '[', '"', '-', 't', 'f', 'n',
   '0', '1', '2', '3', '4', '5', '6', '7', '8', '9']

/-- A necessary condition for a string to be a valid JSON text: its first
non-whitespace character is one of `jsonStartChars`. -/
def jsonTextLead (s : String) : Bool :=
  match s.data.dropWhile (fun c => c == ' ' || c == '\n' || c == '\t' || c == '\r') with
  | [] => false
  | c :: _ => jsonStartChars.contains c

/-!
Concrete fixtures used by counterexamples and witnesses.
-/

/-- A configuration entry `\x7b"value": b\x7d`. -/
def mkEnable (b : Bool) : PyVal := .dict [("value", .bool b)]

/-- A full `additional_settings` dict with the six concern flags, the output
mode, and the token budget. -/
def demoSettings (sec perf mem corr maint rel jsonOut : Bool) (maxTok : Int) : PyDict :=
  [("enable_security_code_refactor", mkEnable sec),
   ("enable_performance_code_refactor", mkEnable perf),
   ("enable_memory_code_refactor", mkEnable mem),
   ("enable_correctness_code_refactor", mkEnable corr),
   ("enable_maintainability_code_refactor", mkEnable maint),
   ("enable_reliability_code_refactor", mkEnable rel),
   ("json_output", mkEnable jsonOut),
   ("max_code_size_tokens", .dict [("value", .int maxTok)])]

/-- A well-formed success response from the model oracle. -/
def securityResponse : PyDict :=
  [("language", .str "python"),
   ("metadata", .dict [("url", .str "http://x")]),
   ("thoughts", .str "looks fine"),
   ("refactored_code", .str "a = 1")]

/-- A response carrying the `final_answer` escape key (the refusal path). -/
def refusalResponse : PyDict :=
  [("final_answer", .str "I cannot refactor this file.")]

/-- A decoded response that is not a refusal and lacks `refactored_code`. -/
def malformedResponse : PyDict :=
  [("language", .str "python"),
   ("metadata", .dict [("url", .str "http://x")]),
   ("thoughts", .str "RAW model reply text")]

/-- A success response whose echoed `metadata` differs from the artifact's. -/
def metadataTamperResponse : PyDict :=
  [("language", .str "python"),
   ("metadata", .str "EVIL"),
   ("thoughts", .str "t"),
   ("refactored_code", .str "a = 1")]

/-!
General lemmas about the embedded pipeline.
-/

/-- Updating one key leaves every other key's lookup unchanged. -/
theorem dictGet_dictSet_ne (d : PyDict) (k k' : String) (v : PyVal) (h : k' ≠ k) :
    dictGet (dictSet d k v) k' = dictGet d k' := by
  induction d with
  | nil => simp [dictGet, dictSet, Ne.symm h]
  | cons p rest ih =>
    obtain ⟨pk, pv⟩ := p
    by_cases hp : pk = k
    · subst hp
      simp [dictGet, dictSet, Ne.symm h]
    · simp [dictGet, dictSet, hp]
      by_cases hq : pk = k'
      · simp [hq]
      · simp [hq, ih]

/-- The first invocation of a non-empty pass loop embeds the loop's initial
`code` and the metadata. -/
theorem runLoop_head (m : PyVal) (t : RefactorTemplate) (ts : List RefactorTemplate)
    (rs : List PyDict) (code : PyVal) (acc : List PyDict) :
    ((runLoop m (t :: ts) rs code acc).1).head? = some ⟨code, m⟩ := by
  cases rs with
  | nil => rfl
  | cons d rs' =>
    simp only [runLoop]
    cases dictGet d "final_answer" with
    | some v => rfl
    | none =>
      cases dictGet d "refactored_code" with
      | none => rfl
      | some nc => rfl

/-- Every invocation of the pass loop embeds the same metadata value. -/
theorem runLoop_metadata (m : PyVal) :
    ∀ (ts : List RefactorTemplate) (rs : List PyDict) (code : PyVal)
      (acc : List PyDict) (inv : PassInvocation),
      inv ∈ (runLoop m ts rs code acc).1 → inv.metadataInput = m := by
  intro ts
  induction ts with
  | nil => intro rs code acc inv h; simp [runLoop] at h
  | cons t rest ih =>
    intro rs code acc inv h
    cases rs with
    | nil =>
      simp only [runLoop, List.mem_singleton] at h
      subst h; rfl
    | cons d rs' =>
      simp only [runLoop] at h
      cases hfa : dictGet d "final_answer" with
      | some v =>
        rw [hfa] at h
        simp only [List.mem_singleton] at h
        subst h; rfl
      | none =>
        rw [hfa] at h
        cases hrc : dictGet d "refactored_code" with
        | none =>
          rw [hrc] at h
          simp only [List.mem_singleton] at h
          subst h; rfl
        | some nc =>
          rw [hrc] at h
          simp only [List.mem_cons] at h
          rcases h with h | h
          · subst h; rfl
          · exact ih rs' nc _ inv h

/-- Chain invariant at the loop level: whenever a pass `i + 1` was invoked,
its embedded `code` is exactly the `refactored_code` value of response `i`. -/
theorem runLoop_chain (m : PyVal) :
    ∀ (ts : List RefactorTemplate) (rs : List PyDict) (code : PyVal)
      (acc : List PyDict) (i : Nat),
      i + 1 < (runLoop m ts rs code acc).1.length →
      ∃ d v, rs[i]? = some d ∧ dictGet d "final_answer" = none ∧
        dictGet d "refactored_code" = some v ∧
        ((runLoop m ts rs code acc).1[i+1]?).map PassInvocation.codeInput = some v := by
  intro ts
  induction ts with
  | nil => intro rs code acc i h; simp [runLoop] at h
  | cons t rest ih =>
    intro rs code acc i h
    cases rs with
    | nil => simp [runLoop] at h
    | cons d rs' =>
      cases hfa : dictGet d "final_answer" with
      | some v => simp [runLoop, hfa] at h
      | none =>
        cases hrc : dictGet d "refactored_code" with
        | none => simp [runLoop, hfa, hrc] at h
        | some nc =>
          simp only [runLoop, hfa, hrc] at h ⊢
          simp only [List.length_cons, add_lt_add_iff_right] at h
          cases i with
          | zero =>
            refine ⟨d, nc, by simp, hfa, hrc, ?_⟩
            simp only [List.getElem?_cons_succ]
            cases rest with
            | nil => simp [runLoop] at h
            | cons t' rest' =>
              have hh := runLoop_head m t' rest' rs' nc (acc ++ [dictSet d "refactor_type" (.str t.description)])
              rcases hl : (runLoop m (t' :: rest') rs' nc (acc ++ [dictSet d "refactor_type" (.str t.description)])).1 with _ | ⟨inv0, invs⟩
              · rw [hl] at hh; simp at hh
              · rw [hl] at hh
                simp only [List.head?_cons, Option.some.injEq] at hh
                simp [hl, hh]
          | succ j =>
            have := ih rs' nc (acc ++ [dictSet d "refactor_type" (.str t.description)]) j h
            simpa using this

/-- A refusal (`final_answer`) at any pass after a prefix of successful
passes makes the whole loop return that value verbatim. -/
theorem runLoop_early (m answer : PyVal) :
    ∀ (pre : List PyDict) (d : PyDict) (rest : List PyDict)
      (ts : List RefactorTemplate) (code : PyVal) (acc : List PyDict),
      (∀ r ∈ pre, dictGet r "final_answer" = none ∧ ∃ w, dictGet r "refactored_code" = some w) →
      dictGet d "final_answer" = some answer →
      pre.length < ts.length →
      (runLoop m ts (pre ++ d :: rest) code acc).2 = .ok (.early answer) := by
  intro pre
  induction pre with
  | nil =>
    intro d rest ts code acc _ hd hlen
    cases ts with
    | nil => simp at hlen
    | cons t ts' => simp [runLoop, hd]
  | cons r pre' ih =>
    intro d rest ts code acc hpre hd hlen
    cases ts with
    | nil => simp at hlen
    | cons t ts' =>
      obtain ⟨hfa, w, hrc⟩ := hpre r (List.mem_cons_self r pre')
      simp only [List.cons_append, runLoop, hfa, hrc]
      exact ih d rest ts' w _ (fun x hx => hpre x (List.mem_cons_of_mem r hx)) hd
        (by simpa using Nat.lt_of_succ_lt_succ (by simpa using hlen))

/-- A decoded response that is neither a refusal nor carries
`refactored_code` halts the loop with `KeyError('refactored_code')`. -/
theorem runLoop_malformed (m : PyVal) :
    ∀ (pre : List PyDict) (d : PyDict) (rest : List PyDict)
      (ts : List RefactorTemplate) (code : PyVal) (acc : List PyDict),
      (∀ r ∈ pre, dictGet r "final_answer" = none ∧ ∃ w, dictGet r "refactored_code" = some w) →
      dictGet d "final_answer" = none →
      dictGet d "refactored_code" = none →
      pre.length < ts.length →
      (runLoop m ts (pre ++ d :: rest) code acc).2 = .error (.keyError "refactored_code") := by
  intro pre
  induction pre with
  | nil =>
    intro d rest ts code acc _ hfa hrc hlen
    cases ts with
    | nil => simp at hlen
    | cons t ts' => simp [runLoop, hfa, hrc]
  | cons r pre' ih =>
    intro d rest ts code acc hpre hfa hrc hlen
    cases ts with
    | nil => simp at hlen
    | cons t ts' =>
      obtain ⟨hfa', w, hrc'⟩ := hpre r (List.mem_cons_self r pre')
      simp only [List.cons_append, runLoop, hfa', hrc']
      exact ih d rest ts' w _ (fun x hx => hpre x (List.mem_cons_of_mem r hx)) hfa hrc
        (by simpa using Nat.lt_of_succ_lt_succ (by simpa using hlen))

/-- When exactly one successful response is supplied per active template, the
loop completes, chaining the code and accumulating the tagged responses. -/
theorem runLoop_complete (m : PyVal) :
    ∀ (ts : List RefactorTemplate) (used : List PyDict) (code : PyVal) (acc : List PyDict),
      used.length = ts.length →
      (∀ r ∈ used, dictGet r "final_answer" = none ∧ ∃ w, dictGet r "refactored_code" = some w) →
      (runLoop m ts used code acc).2 =
        .ok (.done (chainedCode code used) (acc ++ tagResponses ts used)) := by
  intro ts
  induction ts with
  | nil =>
    intro used code acc hlen _
    have hnil : used = [] := List.eq_nil_of_length_eq_zero (by simpa using hlen)
    subst hnil
    simp [runLoop, chainedCode, tagResponses]
  | cons t ts' ih =>
    intro used code acc hlen hsucc
    cases used with
    | nil => simp at hlen
    | cons d used' =>
      obtain ⟨hfa, w, hrc⟩ := hsucc d (List.mem_cons_self d used')
      simp only [runLoop, hfa, hrc]
      have := ih used' w (acc ++ [dictSet d "refactor_type" (.str t.description)])
        (by simpa using hlen) (fun x hx => hsucc x (List.mem_cons_of_mem d hx))
      rw [this]
      simp [chainedCode, hrc, tagResponses, List.append_assoc]

/-- `get_active_code_refactor_templates` computes the spec's canonical
filtered sequence whenever every walked flag is readable. -/
theorem getActiveTemplatesAux_canonical (settings : PyDict) :
    ∀ checks : List (String × String),
      (∀ p ∈ checks, (concernFlag settings p.1).isSome) →
      getActiveTemplatesAux settings checks =
        .ok ((checks.filter (fun p => concernEnabled settings p.1)).map
          (fun p => ⟨asciiUpper p.1 ++ "_TEMPLATE", p.2⟩)) := by
  intro checks
  induction checks with
  | nil => intro _; rfl
  | cons p rest ih =>
    intro h
    obtain ⟨s, desc⟩ := p
    have hf := h ⟨s, desc⟩ (List.mem_cons_self _ _)
    cases hsv : settingValue settings ("enable_" ++ s) with
    | error e => simp [concernFlag, hsv] at hf
    | ok v =>
      have hrest := ih (fun q hq => h q (List.mem_cons_of_mem _ hq))
      simp only [getActiveTemplatesAux, hsv, hrest]
      by_cases hv : pyTruthy v
      · simp [List.filter_cons, concernEnabled, concernFlag, hsv, hv]
      · simp [List.filter_cons, concernEnabled, concernFlag, hsv, hv]

/-- The trace of a full run is either empty (no pass started) or exactly the
trace of the pass loop over the active templates. -/
theorem runCodeRefactors_trace (settings : PyDict) (rs : List PyDict) (code md : PyVal) :
    (runCodeRefactors settings rs code md).1 = [] ∨
    ∃ t ts, getActiveCodeRefactorTemplates settings = .ok (t :: ts) ∧
      (runCodeRefactors settings rs code md).1 = (runLoop md (t :: ts) rs code []).1 := by
  cases hget : getActiveCodeRefactorTemplates settings with
  | error e => left; simp [runCodeRefactors, hget]
  | ok templates =>
    cases templates with
    | nil => left; simp [runCodeRefactors, hget]
    | cons t ts =>
      right
      refine ⟨t, ts, rfl, ?_⟩
      simp only [runCodeRefactors, hget]
      rw [if_neg (by simp)]

/-- The last accumulated loop result is the last supplied response tagged
with the last active template's description. -/
theorem tagResponses_getLast :
    ∀ (ts : List RefactorTemplate) (used : List PyDict) (dLast : PyDict),
      used.length = ts.length → used.getLast? = some dLast →
      ∃ t : RefactorTemplate, (tagResponses ts used).getLast? =
        some (dictSet dLast "refactor_type" (.str t.description)) := by
  intro ts
  induction ts with
  | nil =>
    intro used dLast hlen hlast
    have : used = [] := List.eq_nil_of_length_eq_zero (by simpa using hlen)
    subst this
    simp at hlast
  | cons t ts' ih =>
    intro used dLast hlen hlast
    cases used with
    | nil => simp at hlen
    | cons d used' =>
      cases used' with
      | nil =>
        have : ts' = [] := List.eq_nil_of_length_eq_zero (by simpa using hlen.symm)
        subst this
        simp only [List.getLast?_singleton, Option.some.injEq] at hlast
        subst hlast
        exact ⟨t, by simp [tagResponses]⟩
      | cons d' used'' =>
        have hlen' : (d' :: used'').length = ts'.length := by simpa using hlen
        have hlast' : (d' :: used'').getLast? = some dLast := by
          rw [← hlast]; simp [List.getLast?_cons_cons]
        cases ts' with
        | nil => simp at hlen'
        | cons u ts'' =>
          obtain ⟨w, hw⟩ := ih (d' :: used'') dLast hlen' hlast'
          refine ⟨w, ?_⟩
          simp only [tagResponses, List.getLast?_cons_cons]
          simpa [tagResponses] using hw

/-- Whenever `buildResults` succeeds, the report's `metadata` field is the
`metadata` value of the last accumulated pass result. -/
theorem buildResults_ok_metadata (code : PyVal) (accs : List PyDict) (results : PyDict)
    (h : buildResults code accs = .ok results) :
    ∃ dl, accs.getLast? = some dl ∧
      dictGet results "metadata" = dictGet dl "metadata" := by
  unfold buildResults at h
  split at h
  · exact absurd h (by simp)
  · next dl hdl =>
    split at h
    · exact absurd h (by simp)
    · next mv hmv =>
      split at h
      · exact absurd h (by simp)
      · next lv hlv =>
        split at h
        · exact absurd h (by simp)
        · next th hth =>
          simp only [Except.ok.injEq] at h
          subst h
          exact ⟨dl, hdl, by rw [hmv]; rfl⟩

/-!
Additional fixtures for witnesses and counterexamples.
-/

/-- Security and Performance enabled, human-readable output. -/
def twoPassSettings : PyDict := demoSettings true true false false false false false 100

/-- Security only, structured (`json_output`) output. -/
def jsonOutSettings : PyDict := demoSettings true false false false false false true 100

/-- Security and Memory enabled, in the canonical settings order. -/
def orderedSettings : PyDict := demoSettings true false true false false false true 100

/-- The same enabled set as `orderedSettings`, but with the configuration
dict built in a different insertion order and with an unrelated extra key. -/
def scrambledSettings : PyDict :=
  [("max_code_size_tokens", .dict [("value", .int 7)]),
   ("enable_reliability_code_refactor", mkEnable false),
   ("enable_memory_code_refactor", mkEnable true),
   ("unrelated_key", .str "x"),
   ("enable_security_code_refactor", mkEnable true),
   ("enable_correctness_code_refactor", mkEnable false),
   ("enable_performance_code_refactor", mkEnable false),
   ("enable_maintainability_code_refactor", mkEnable false),
   ("json_output", mkEnable false)]

/-!
The claims.
-/

/-- C5: the active pass sequence equals the fixed canonical order (Security,
Performance, Memory, Correctness, Maintainability, Reliability) filtered to
the enabled concerns, and is a deterministic function of the enabled-concern
set: any two configurations with the same readable flags yield the identical
ordered sequence, independently of the configuration dict's own order. -/
theorem c5_active_passes_canonical_and_deterministic (s1 s2 : PyDict)
    (h1 : ∀ p ∈ templateChecks, (concernFlag s1 p.1).isSome)
    (h2 : ∀ p ∈ templateChecks, concernFlag s2 p.1 = concernFlag s1 p.1) :
    getActiveCodeRefactorTemplates s1 = .ok (canonicalActiveTemplates s1) ∧
    getActiveCodeRefactorTemplates s2 = getActiveCodeRefactorTemplates s1 := by
  have h1' : ∀ p ∈ templateChecks, (concernFlag s2 p.1).isSome := by
    intro p hp
    rw [h2 p hp]
    exact h1 p hp
  have hcan1 := getActiveTemplatesAux_canonical s1 templateChecks h1
  have hcan2 := getActiveTemplatesAux_canonical s2 templateChecks h1'
  refine ⟨hcan1, ?_⟩
  unfold getActiveCodeRefactorTemplates at *
  rw [hcan1, hcan2]
  have hfil : templateChecks.filter (fun p => concernEnabled s2 p.1) =
      templateChecks.filter (fun p => concernEnabled s1 p.1) :=
    List.filter_congr (fun p hp => by simp [concernEnabled, h2 p hp])
  rw [hfil]

/-- C5 witness: two concrete configurations enabling exactly Security and
Memory, one in canonical entry order and one scrambled with an extra key,
produce the same canonical pass sequence. -/
theorem c5_active_passes_witness :
    (∀ p ∈ templateChecks, (concernFlag orderedSettings p.1).isSome) ∧
    (∀ p ∈ templateChecks, concernFlag scrambledSettings p.1 = concernFlag orderedSettings p.1) ∧
    (getActiveCodeRefactorTemplates orderedSettings = .ok (canonicalActiveTemplates orderedSettings) ∧
     getActiveCodeRefactorTemplates scrambledSettings = getActiveCodeRefactorTemplates orderedSettings) ∧
    canonicalActiveTemplates orderedSettings =
      [⟨"SECURITY_CODE_REFACTOR_TEMPLATE", "Security"⟩,
       ⟨"MEMORY_CODE_REFACTOR_TEMPLATE", "Memory"⟩] :=
  ⟨by decide, by decide,
   c5_active_passes_canonical_and_deterministic orderedSettings scrambledSettings
     (by decide) (by decide), by decide⟩

/-- C6: when the configuration enables no concern (the filtered template
sequence is empty), the pipeline raises the no-active-templates exception
with zero model invocations — an empty concern set is an error, not a silent
no-op run. -/
theorem c6_empty_concerns_errors_before_model (settings : PyDict)
    (responses : List PyDict) (code metadata : PyVal)
    (h : getActiveCodeRefactorTemplates settings = .ok []) :
    runCodeRefactors settings responses code metadata =
      ([], .error (.exception noActiveTemplatesMessage)) := by
  simp [runCodeRefactors, h]

/-- C6 witness: the all-flags-false configuration filters to no templates and
the run halts with the configuration error and an empty invocation trace. -/
theorem c6_empty_concerns_witness :
    getActiveCodeRefactorTemplates (demoSettings false false false false false false false 100) = .ok [] ∧
    runCodeRefactors (demoSettings false false false false false false false 100)
        [securityResponse] (.str "a=1") (.dict []) =
      ([], .error (.exception noActiveTemplatesMessage)) :=
  ⟨rfl, c6_empty_concerns_errors_before_model _ _ _ _ rfl⟩

/-- C2 counterexample: with `max_code_size_tokens = 10` and an estimated cost
of 50, the URL-based run halts with zero model invocations, but the returned
explanation does not name the configured maximum (no "10" occurs in it); and
the file-id entry point runs a model pass with no budget check at all, even
though the same tokenizer estimates the same artifact at 50 tokens. -/
theorem c2_budget_counterexample :
    refactorFileFromUrl (fun _ => 50) (demoSettings true false false false false false true 10)
        [securityResponse] [("url", .str "http://x"), ("file_content", .str "a=1")] =
      ([], .ok (.message (fileTooLargeMessage 50))) ∧
    ¬ ("10".data <:+: (fileTooLargeMessage 50).data) ∧
    (conductCodeRefactorFromFileId (demoSettings true false false false false false true 10)
        [securityResponse] "Code" "f.py" "a=1").1.length = 1 :=
  ⟨rfl, by decide, rfl⟩

/-- C2 (amended): in the URL-based entry point, an artifact whose token
estimate exceeds the configured maximum halts the run before any model
invocation (the invocation trace is empty) and returns an explanation naming
the actual token count; the explanation does not include the configured
maximum, and the file-id entry point performs no budget check at all. -/
theorem c2_budget_guard_url_path (numTokens : String → Nat) (settings : PyDict)
    (responses : List PyDict) (fileInfo : PyDict) (fileData : String) (maxTokens : Int)
    (hfc : dictGet fileInfo "file_content" = some (.str fileData))
    (hmax : getMaxCodeRefactorTokenCount settings = .ok (.int maxTokens))
    (hover : maxTokens < (numTokens fileData : Int)) :
    refactorFileFromUrl numTokens settings responses fileInfo =
      ([], .ok (.message (fileTooLargeMessage (numTokens fileData)))) ∧
    (toString (numTokens fileData)).data <:+: (fileTooLargeMessage (numTokens fileData)).data := by
  constructor
  · simp [refactorFileFromUrl, hfc, hmax, hover]
  · refine ⟨"File is too large to be refactored (".data,
      (" tokens). Adjust max code refactor tokens, or refactor this code file so that it\x27s smaller.").data, ?_⟩
    simp [fileTooLargeMessage, String.data_append, List.append_assoc]

/-- C2 witness: concrete oversize run through the amended guard theorem. -/
theorem c2_budget_guard_witness :
    dictGet [("url", PyVal.str "http://x"), ("file_content", PyVal.str "a=1")] "file_content" =
      some (.str "a=1") ∧
    getMaxCodeRefactorTokenCount (demoSettings true false false false false false true 10) =
      .ok (.int 10) ∧
    ((10 : Int) < ((fun (_ : String) => (50 : Nat)) "a=1" : Int)) ∧
    (refactorFileFromUrl (fun _ => 50) (demoSettings true false false false false false true 10)
        [securityResponse] [("url", .str "http://x"), ("file_content", .str "a=1")] =
      ([], .ok (.message (fileTooLargeMessage 50))) ∧
     (toString ((fun (_ : String) => (50 : Nat)) "a=1")).data <:+:
       (fileTooLargeMessage ((fun (_ : String) => (50 : Nat)) "a=1")).data) :=
  ⟨rfl, rfl, by decide,
   c2_budget_guard_url_path (fun _ => 50) (demoSettings true false false false false false true 10)
     [securityResponse] [("url", .str "http://x"), ("file_content", .str "a=1")] "a=1" 10
     rfl rfl (by decide)⟩

/-- The exact structured-output text of the single-pass Security run used to
exhibit the `json_output` encoding. -/
def c7Output : String :=
  "```json\n\x7b\x27language\x27: \x27python\x27, \x27metadata\x27: \x7b\x27url\x27: \x27http://x\x27\x7d, \x27refactor_thoughts\x27: [\x7b\x27refactor_type\x27: \x27Security\x27, \x27thoughts\x27: \x27looks fine\x27\x7d], \x27refactored_code\x27: \x27a = 1\x27\x7d\n```"

/-- C7: with `json_output` enabled, a completed run interpolates the Python
`results` dict into a markdown code fence, so the rendered text is the
Python `repr` of the dict (single-quoted keys) wrapped in backticks — it is
not a JSON serialization of the report: its first character cannot begin a
JSON text. -/
theorem c7_structured_output_is_not_json :
    (runCodeRefactors jsonOutSettings [securityResponse] (.str "a=1")
        (.dict [("url", .str "http://x")])).2 = .ok (.rendered c7Output) ∧
    jsonTextLead c7Output = false :=
  ⟨rfl, by decide⟩

/-- C10: the human-readable formatter selects `metadata["url"]` as the
identifying label when the key `"url"` is present, falls back to
`metadata["filename"]` otherwise, and raises `KeyError('filename')` instead
of returning a string when the metadata carries neither key. -/
theorem c10_formatter_label_partiality (results m : PyDict) (entries : List PyVal)
    (parts : List String) (lang codeVal : PyVal)
    (hth : dictGet results "refactor_thoughts" = some (.list entries))
    (hparts : formatThoughtsList entries = .ok parts)
    (hlang : dictGet results "language" = some lang)
    (hmd : dictGet results "metadata" = some (.dict m))
    (hcode : dictGet results "refactored_code" = some codeVal) :
    (∀ u, dictGet m "url" = some u →
      formatRefactorResults results =
        .ok (humanReportString lang u (String.intercalate "\n\n" parts) codeVal)) ∧
    (∀ f, dictGet m "url" = none → dictGet m "filename" = some f →
      formatRefactorResults results =
        .ok (humanReportString lang f (String.intercalate "\n\n" parts) codeVal)) ∧
    (dictGet m "url" = none → dictGet m "filename" = none →
      formatRefactorResults results = .error (.keyError "filename")) := by
  refine ⟨?_, ?_, ?_⟩
  · intro u hu
    simp only [formatRefactorResults, hth, hparts, hlang, hmd, hcode, hu]
  · intro f hu hf
    simp only [formatRefactorResults, hth, hparts, hlang, hmd, hcode, hu, hf]
  · intro hu hf
    simp only [formatRefactorResults, hth, hparts, hlang, hmd, hcode, hu, hf]

/-- A report whose metadata has a `url` key. -/
def reportWithUrl : PyDict :=
  [("language", .str "python"), ("metadata", .dict [("url", .str "http://x")]),
   ("refactor_thoughts", .list []), ("refactored_code", .str "c")]

/-- A report whose metadata has only a `filename` key. -/
def reportWithFilename : PyDict :=
  [("language", .str "python"), ("metadata", .dict [("filename", .str "f.py")]),
   ("refactor_thoughts", .list []), ("refactored_code", .str "c")]

/-- A report whose metadata has neither `url` nor `filename`. -/
def reportWithoutLabel : PyDict :=
  [("language", .str "python"), ("metadata", .dict [("x", .str "y")]),
   ("refactor_thoughts", .list []), ("refactored_code", .str "c")]

/-- C10 witness: on concrete reports the formatter uses the url, falls back
to the filename, and raises `KeyError('filename')` when neither is there. -/
theorem c10_formatter_label_witness :
    formatRefactorResults reportWithUrl =
      .ok (humanReportString (.str "python") (.str "http://x") (String.intercalate "\n\n" []) (.str "c")) ∧
    formatRefactorResults reportWithFilename =
      .ok (humanReportString (.str "python") (.str "f.py") (String.intercalate "\n\n" []) (.str "c")) ∧
    formatRefactorResults reportWithoutLabel = .error (.keyError "filename") :=
  ⟨(c10_formatter_label_partiality reportWithUrl [("url", .str "http://x")] [] []
      (.str "python") (.str "c") rfl rfl rfl rfl rfl).1 (.str "http://x") rfl,
   (c10_formatter_label_partiality reportWithFilename [("filename", .str "f.py")] [] []
      (.str "python") (.str "c") rfl rfl rfl rfl rfl).2.1 (.str "f.py") rfl rfl,
   (c10_formatter_label_partiality reportWithoutLabel [("x", .str "y")] [] []
      (.str "python") (.str "c") rfl rfl rfl rfl rfl).2.2 rfl rfl⟩

/-- Security only, human-readable output. -/
def singlePassSettings : PyDict := demoSettings true false false false false false false 100

/-- C1 counterexample: pass 1 does not receive the original artifact text
byte-for-byte — it receives the Python list of 1-based line-numbered lines
built from it, which is a different value than the text `"a=1"`. -/
theorem c1_first_pass_counterexample :
    (conductCodeRefactor singlePassSettings [securityResponse] "a=1"
        (.dict [("url", .str "http://x")])).1.head? =
      some ⟨.list [.str "1: a=1"], .dict [("url", .str "http://x")]⟩ ∧
    PyVal.list [.str "1: a=1"] ≠ PyVal.str "a=1" :=
  ⟨rfl, fun h => PyVal.noConfusion h⟩

/-- C1 (amended): pass 1 receives the original artifact text annotated with
1-based line numbers (as the Python list of numbered lines), not the raw
text; from then on the chain invariant holds exactly — whenever pass `i + 1`
was invoked, the text it receives is byte-for-byte the `refactored_code`
value produced by pass `i`, never stale or reordered input. -/
theorem c1_pass_chaining (settings : PyDict) (responses : List PyDict)
    (fileData : String) (metadata : PyVal)
    (hne : (conductCodeRefactor settings responses fileData metadata).1 ≠ []) :
    (conductCodeRefactor settings responses fileData metadata).1.head? =
      some ⟨.list ((annotateWithLineNumbers fileData).map .str), metadata⟩ ∧
    ∀ i, i + 1 < (conductCodeRefactor settings responses fileData metadata).1.length →
      ∃ d v, responses[i]? = some d ∧ dictGet d "refactored_code" = some v ∧
        ((conductCodeRefactor settings responses fileData metadata).1[i+1]?).map
          PassInvocation.codeInput = some v := by
  simp only [conductCodeRefactor] at hne ⊢
  rcases runCodeRefactors_trace settings responses
      (.list ((annotateWithLineNumbers fileData).map .str)) metadata with h0 | ⟨t, ts, _, heq⟩
  · exact absurd h0 hne
  · constructor
    · rw [heq]
      exact runLoop_head metadata t ts responses _ []
    · intro i hi
      rw [heq] at hi ⊢
      obtain ⟨d, v, hd, _, hrc, hmap⟩ :=
        runLoop_chain metadata (t :: ts) responses _ [] i hi
      exact ⟨d, v, hd, hrc, hmap⟩

/-- C1 witness: a concrete two-pass run; its second pass's input is exactly
the first response's `refactored_code`. -/
theorem c1_pass_chaining_witness :
    ((conductCodeRefactor twoPassSettings [securityResponse, securityResponse] "a=1"
        (.dict [("url", .str "http://x")])).1 ≠ []) ∧
    ((conductCodeRefactor twoPassSettings [securityResponse, securityResponse] "a=1"
        (.dict [("url", .str "http://x")])).1.head? =
      some ⟨.list ((annotateWithLineNumbers "a=1").map .str), .dict [("url", .str "http://x")]⟩ ∧
    ∀ i, i + 1 < (conductCodeRefactor twoPassSettings [securityResponse, securityResponse] "a=1"
        (.dict [("url", .str "http://x")])).1.length →
      ∃ d v, ([securityResponse, securityResponse] : List PyDict)[i]? = some d ∧
        dictGet d "refactored_code" = some v ∧
        ((conductCodeRefactor twoPassSettings [securityResponse, securityResponse] "a=1"
            (.dict [("url", .str "http://x")])).1[i+1]?).map PassInvocation.codeInput = some v) :=
  have hne : (conductCodeRefactor twoPassSettings [securityResponse, securityResponse] "a=1"
      (.dict [("url", .str "http://x")])).1 ≠ [] :=
    fun h => absurd (congrArg List.length h) (by decide)
  ⟨hne, c1_pass_chaining twoPassSettings [securityResponse, securityResponse] "a=1"
    (.dict [("url", .str "http://x")]) hne⟩

/-- C3: a response carrying `final_answer` at any pass, after any prefix of
successful passes, makes the pipeline return that value verbatim as the
run's result; the already-accumulated pass results are discarded (the result
carries nothing but the refusal text) and the result is the early-return
variant, not a rendered report. -/
theorem c3_refusal_returns_verbatim (settings : PyDict) (ts : List RefactorTemplate)
    (pre : List PyDict) (d : PyDict) (rest : List PyDict) (code metadata answer : PyVal)
    (hget : getActiveCodeRefactorTemplates settings = .ok ts)
    (hlen : pre.length < ts.length)
    (hpre : ∀ r ∈ pre, dictGet r "final_answer" = none ∧ ∃ w, dictGet r "refactored_code" = some w)
    (hd : dictGet d "final_answer" = some answer) :
    (runCodeRefactors settings (pre ++ d :: rest) code metadata).2 = .ok (.early answer) ∧
    ∀ text, RunReturn.early answer ≠ RunReturn.rendered text := by
  constructor
  · simp only [runCodeRefactors, hget]
    rw [if_neg (by omega)]
    show renderPhase settings (runLoop metadata ts (pre ++ d :: rest) code []).2 =
      .ok (.early answer)
    rw [runLoop_early metadata answer pre d rest ts code [] hpre hd hlen]
    rfl
  · intro text h
    exact RunReturn.noConfusion h

/-- C3 witness: Security succeeds, then the model refuses; the run returns
the refusal text verbatim. -/
theorem c3_refusal_witness :
    getActiveCodeRefactorTemplates twoPassSettings =
      .ok [⟨"SECURITY_CODE_REFACTOR_TEMPLATE", "Security"⟩,
           ⟨"PERFORMANCE_CODE_REFACTOR_TEMPLATE", "Performance"⟩] ∧
    ([securityResponse] : List PyDict).length < 2 ∧
    dictGet refusalResponse "final_answer" = some (.str "I cannot refactor this file.") ∧
    (runCodeRefactors twoPassSettings [securityResponse, refusalResponse] (.str "a=1")
        (.dict [("url", .str "http://x")])).2 =
      .ok (.early (.str "I cannot refactor this file.")) :=
  ⟨rfl, by decide, rfl,
   (c3_refusal_returns_verbatim twoPassSettings
      [⟨"SECURITY_CODE_REFACTOR_TEMPLATE", "Security"⟩,
       ⟨"PERFORMANCE_CODE_REFACTOR_TEMPLATE", "Performance"⟩]
      [securityResponse] refusalResponse [] (.str "a=1") (.dict [("url", .str "http://x")])
      (.str "I cannot refactor this file.") rfl (by decide)
      (by intro r hr
          rw [List.mem_singleton] at hr
          subst hr
          exact ⟨rfl, .str "a = 1", rfl⟩)
      rfl).1⟩

/-- C4 counterexample: Security succeeds, the Performance reply decodes but
omits `refactored_code`; the run halts with `KeyError('refactored_code')`,
whose payload is only the missing key name — the raw model reply (its
`thoughts` text) is not surfaced anywhere in the result. -/
theorem c4_malformed_counterexample :
    (runCodeRefactors twoPassSettings [securityResponse, malformedResponse] (.str "a=1")
        (.dict [("url", .str "http://x")])).2 = .error (.keyError "refactored_code") ∧
    ¬ ("RAW model reply text".data <:+: "refactored_code".data) :=
  ⟨rfl, by decide⟩

/-- C4 (amended): a decoded response that is not a refusal and lacks
`refactored_code`, arriving after any prefix of successful passes, halts the
whole run with `KeyError('refactored_code')` — no partial multi-pass result
is reported — but the error carries only the missing key's name, not the raw
model response. -/
theorem c4_missing_field_halts (settings : PyDict) (ts : List RefactorTemplate)
    (pre : List PyDict) (d : PyDict) (rest : List PyDict) (code metadata : PyVal)
    (hget : getActiveCodeRefactorTemplates settings = .ok ts)
    (hlen : pre.length < ts.length)
    (hpre : ∀ r ∈ pre, dictGet r "final_answer" = none ∧ ∃ w, dictGet r "refactored_code" = some w)
    (hfa : dictGet d "final_answer" = none)
    (hrc : dictGet d "refactored_code" = none) :
    (runCodeRefactors settings (pre ++ d :: rest) code metadata).2 =
      .error (.keyError "refactored_code") := by
  simp only [runCodeRefactors, hget]
  rw [if_neg (by omega)]
  show renderPhase settings (runLoop metadata ts (pre ++ d :: rest) code []).2 =
    .error (.keyError "refactored_code")
  rw [runLoop_malformed metadata pre d rest ts code [] hpre hfa hrc hlen]
  rfl

/-- C4 witness: the concrete two-pass run of the counterexample, through the
amended theorem. -/
theorem c4_missing_field_witness :
    getActiveCodeRefactorTemplates twoPassSettings =
      .ok [⟨"SECURITY_CODE_REFACTOR_TEMPLATE", "Security"⟩,
           ⟨"PERFORMANCE_CODE_REFACTOR_TEMPLATE", "Performance"⟩] ∧
    dictGet malformedResponse "final_answer" = none ∧
    dictGet malformedResponse "refactored_code" = none ∧
    (runCodeRefactors twoPassSettings [securityResponse, malformedResponse] (.str "b=2")
        (.dict [("url", .str "http://x")])).2 = .error (.keyError "refactored_code") :=
  ⟨rfl, rfl, rfl,
   c4_missing_field_halts twoPassSettings
     [⟨"SECURITY_CODE_REFACTOR_TEMPLATE", "Security"⟩,
      ⟨"PERFORMANCE_CODE_REFACTOR_TEMPLATE", "Performance"⟩]
     [securityResponse] malformedResponse [] (.str "b=2") (.dict [("url", .str "http://x")])
     rfl (by decide)
     (by intro r hr
         rw [List.mem_singleton] at hr
         subst hr
         exact ⟨rfl, .str "a = 1", rfl⟩)
     rfl rfl⟩

/-- The exact structured output of the run whose model response echoes
`'EVIL'` as its metadata. -/
def c8Output : String :=
  "```json\n\x7b\x27language\x27: \x27python\x27, \x27metadata\x27: \x27EVIL\x27, \x27refactor_thoughts\x27: [\x7b\x27refactor_type\x27: \x27Security\x27, \x27thoughts\x27: \x27t\x27\x7d], \x27refactored_code\x27: \x27a = 1\x27\x7d\n```"

/-- C8 counterexample: a completed run whose single pass echoes `'EVIL'` as
`metadata` produces a report carrying the model's `'EVIL'` as its metadata;
the original artifact metadata (`'url': 'http://x'`) appears nowhere in the
report, so the report metadata does not equal the artifact's. -/
theorem c8_metadata_counterexample :
    (runCodeRefactors jsonOutSettings [metadataTamperResponse] (.str "a=1")
        (.dict [("url", .str "http://x")])).2 = .ok (.rendered c8Output) ∧
    ("\x27metadata\x27: \x27EVIL\x27".data <:+: c8Output.data) ∧
    ¬ ("\x27url\x27: \x27http://x\x27".data <:+: c8Output.data) :=
  ⟨rfl, by decide, by decide⟩

/-- C8 (amended): the artifact's metadata is embedded unmodified into every
pass's prompt; but the completed report's `metadata` field is read from the
last pass's model response (its echoed `metadata` key), not from the
artifact, so it equals the original only when the model echoes it
faithfully. -/
theorem c8_metadata_source (settings : PyDict) (ts : List RefactorTemplate)
    (used : List PyDict) (dLast : PyDict) (code metadata : PyVal)
    (hget : getActiveCodeRefactorTemplates settings = .ok ts)
    (hlen : used.length = ts.length)
    (hsucc : ∀ r ∈ used, dictGet r "final_answer" = none ∧ ∃ w, dictGet r "refactored_code" = some w)
    (hlast : used.getLast? = some dLast) :
    (∀ inv ∈ (runCodeRefactors settings used code metadata).1, inv.metadataInput = metadata) ∧
    (ts ≠ [] → (runCodeRefactors settings used code metadata).2 =
      renderPhase settings (.ok (.done (chainedCode code used) (tagResponses ts used)))) ∧
    (∀ results, buildResults (chainedCode code used) (tagResponses ts used) = .ok results →
      dictGet results "metadata" = dictGet dLast "metadata") := by
  refine ⟨?_, ?_, ?_⟩
  · intro inv hin
    rcases runCodeRefactors_trace settings used code metadata with h0 | ⟨t, ts', _, heq⟩
    · rw [h0] at hin
      simp at hin
    · rw [heq] at hin
      exact runLoop_metadata metadata _ _ _ _ inv hin
  · intro hts
    simp only [runCodeRefactors, hget]
    rw [if_neg (fun h => hts (List.eq_nil_of_length_eq_zero h))]
    show renderPhase settings (runLoop metadata ts used code []).2 = _
    rw [runLoop_complete metadata ts used code [] hlen hsucc]
    simp
  · intro results hres
    obtain ⟨dl, hdl, hmd⟩ := buildResults_ok_metadata _ _ _ hres
    obtain ⟨t, htag⟩ := tagResponses_getLast ts used dLast hlen hlast
    rw [htag] at hdl
    simp only [Option.some.injEq] at hdl
    subst hdl
    rw [hmd, dictGet_dictSet_ne _ _ _ _ (by decide)]

/-- C8 witness: the tampering run of the counterexample, through the amended
theorem — the prompt metadata is the artifact's, and the report metadata is
the last response's. -/
theorem c8_metadata_source_witness :
    getActiveCodeRefactorTemplates jsonOutSettings =
      .ok [⟨"SECURITY_CODE_REFACTOR_TEMPLATE", "Security"⟩] ∧
    ([metadataTamperResponse] : List PyDict).getLast? = some metadataTamperResponse ∧
    ((∀ inv ∈ (runCodeRefactors jsonOutSettings [metadataTamperResponse] (.str "a=1")
          (.dict [("url", .str "http://x")])).1,
        inv.metadataInput = .dict [("url", .str "http://x")]) ∧
     (([⟨"SECURITY_CODE_REFACTOR_TEMPLATE", "Security"⟩] : List RefactorTemplate) ≠ [] →
       (runCodeRefactors jsonOutSettings [metadataTamperResponse] (.str "a=1")
           (.dict [("url", .str "http://x")])).2 =
         renderPhase jsonOutSettings (.ok (.done (chainedCode (.str "a=1") [metadataTamperResponse])
           (tagResponses [⟨"SECURITY_CODE_REFACTOR_TEMPLATE", "Security"⟩] [metadataTamperResponse])))) ∧
     (∀ results,
        buildResults (chainedCode (.str "a=1") [metadataTamperResponse])
          (tagResponses [⟨"SECURITY_CODE_REFACTOR_TEMPLATE", "Security"⟩] [metadataTamperResponse]) =
          .ok results →
        dictGet results "metadata" = dictGet metadataTamperResponse "metadata")) :=
  ⟨rfl, rfl,
   c8_metadata_source jsonOutSettings [⟨"SECURITY_CODE_REFACTOR_TEMPLATE", "Security"⟩]
     [metadataTamperResponse] metadataTamperResponse (.str "a=1")
     (.dict [("url", .str "http://x")]) rfl rfl
     (by intro r hr
         rw [List.mem_singleton] at hr
         subst hr
         exact ⟨rfl, .str "a = 1", rfl⟩)
     rfl⟩

/-- C9 counterexample: in a two-pass run, the text embedded in pass 1's
prompt is the line-numbered rendering of the artifact, but pass 2's prompt
embeds the previous `refactored_code` raw — its line-numbered form
(`"1: a = 1"`) occurs nowhere in what pass 2 receives, so the annotation is
not stable across passes. -/
theorem c9_annotation_counterexample :
    ((conductCodeRefactor twoPassSettings [securityResponse, securityResponse] "a=1"
        (.dict [("url", .str "http://x")])).1.map (fun inv => pyStr inv.codeInput)) =
      ["[\x271: a=1\x27]", "a = 1"] ∧
    annotateWithLineNumbers "a = 1" = ["1: a = 1"] ∧
    ¬ ("1: a = 1".data <:+: "a = 1".data) :=
  ⟨rfl, rfl, by decide⟩

/-- C9 (amended): pass 1's prompt embeds the artifact text annotated with
1-based line numbers; every later pass embeds the previous pass's
`refactored_code` value verbatim, with no re-annotation; nothing is ever
parsed back out of a response — the full rewritten text flows on
unchanged. -/
theorem c9_prompt_annotation (settings : PyDict) (responses : List PyDict)
    (fileData : String) (metadata : PyVal)
    (hne : (conductCodeRefactor settings responses fileData metadata).1 ≠ []) :
    ((conductCodeRefactor settings responses fileData metadata).1.head?).map
      (fun inv => pyStr inv.codeInput) =
      some (pyStr (.list ((annotateWithLineNumbers fileData).map .str))) ∧
    ∀ i, i + 1 < (conductCodeRefactor settings responses fileData metadata).1.length →
      ∃ d v, responses[i]? = some d ∧ dictGet d "refactored_code" = some v ∧
        ((conductCodeRefactor settings responses fileData metadata).1[i+1]?).map
          (fun inv => pyStr inv.codeInput) = some (pyStr v) := by
  simp only [conductCodeRefactor] at hne ⊢
  rcases runCodeRefactors_trace settings responses
      (.list ((annotateWithLineNumbers fileData).map .str)) metadata with h0 | ⟨t, ts, hget, heq⟩
  · exact absurd h0 hne
  · constructor
    · rw [heq, runLoop_head metadata t ts responses _ []]
      rfl
    · intro i hi
      rw [heq] at hi ⊢
      obtain ⟨d, v, hd, _, hrc, hmap⟩ :=
        runLoop_chain metadata (t :: ts) responses _ [] i hi
      refine ⟨d, v, hd, hrc, ?_⟩
      cases he : (runLoop metadata (t :: ts) responses
          (.list ((annotateWithLineNumbers fileData).map .str)) []).1[i+1]? with
      | none => rw [he] at hmap; simp at hmap
      | some inv =>
        rw [he] at hmap
        simp at hmap
        simp [hmap]

/-- C9 witness: the two-pass run of the counterexample, through the amended
theorem. -/
theorem c9_prompt_annotation_witness :
    ((conductCodeRefactor twoPassSettings [securityResponse, securityResponse] "a=1"
        (.dict [("url", .str "http://x")])).1 ≠ []) ∧
    (((conductCodeRefactor twoPassSettings [securityResponse, securityResponse] "a=1"
        (.dict [("url", .str "http://x")])).1.head?).map (fun inv => pyStr inv.codeInput) =
      some (pyStr (.list ((annotateWithLineNumbers "a=1").map .str))) ∧
    ∀ i, i + 1 < (conductCodeRefactor twoPassSettings [securityResponse, securityResponse] "a=1"
        (.dict [("url", .str "http://x")])).1.length →
      ∃ d v, ([securityResponse, securityResponse] : List PyDict)[i]? = some d ∧
        dictGet d "refactored_code" = some v ∧
        ((conductCodeRefactor twoPassSettings [securityResponse, securityResponse] "a=1"
            (.dict [("url", .str "http://x")])).1[i+1]?).map
          (fun inv => pyStr inv.codeInput) = some (pyStr v)) :=
  have hne : (conductCodeRefactor twoPassSettings [securityResponse, securityResponse] "a=1"
      (.dict [("url", .str "http://x")])).1 ≠ [] :=
    fun h => absurd (congrArg List.length h) (by decide)
  ⟨hne, c9_prompt_annotation twoPassSettings [securityResponse, securityResponse] "a=1"
    (.dict [("url", .str "http://x")]) hne⟩

end CodeRefactor
